import Mathlib

/-!
A shallow embedding of `src/validator.js` (sam-validator).

The module keeps two process-wide variables (`db`, `errors`), a table `validator` of seven
asynchronous rule evaluators, and the entry point `exports.validate`.  The embedding threads
the two variables explicitly through every function (`Globals`), turns a thrown exception or
a rejected promise into `Except.error`, and keeps the source's names.

Conventions:
* a JavaScript string is a Lean `String`;
* a record value is a `Value` (`undefined`, `null` or a string), as in the data model;
* the record and the rule-spec map are inputs of `validate`: the record is read through
  `data[key]`, the rule-spec map through `Object.entries(rules)`, so the latter is
  represented by its list of entries in the order `Object.entries` yields them;
* `v.isEmail` and `v.isLength` belong to the npm package `validator`, which is not part of
  the repository: they are parameters of the embedding (`StringPredicates`);
* `db.get(query).promise()` is a function from the query to a response or an error;
* `lookups` is a ghost log of the queries handed to `db.get`; the source has no such
  variable, it only serves to state how many lookups an evaluator makes.
-/

namespace SamValidator

/-! ## Data model -/

/-- A value read from the record: `data[key]`. -/
inductive Value where
  | undefined
  | null
  | str (s : String)
  deriving DecidableEq, Repr

/-- An entry pushed on `errors`.  `param` is `none` when the object literal has no `param`
property (rules `email`, `null`, `required`), `some none` when the property holds `null`. -/
structure Failure where
  rule : String
  key : String
  value : Value
  param : Option (Option String)
  error : String
  deriving DecidableEq, Repr

/-- What `validate` returns: `{ valid, errors }`. -/
structure ValidationResult where
  valid : Bool
  errors : List Failure
  deriving DecidableEq, Repr

/-- A thrown exception or rejected promise. -/
inductive JsError where
  | typeError (msg : String)
  | storeError (msg : String)
  deriving DecidableEq, Repr

deriving instance DecidableEq for Except

/-- The object literal handed to `db.get`: `{ TableName, AttributesToGet, Key }`.  `Key` is
the list of the properties of the key object. -/
structure Query where
  TableName : String
  AttributesToGet : List String
  Key : List (String × Value)
  deriving DecidableEq, Repr

/-- What the promise of `db.get(query).promise()` resolves to: `null`, `undefined`, or an
object, of which only `Object.keys` is inspected. -/
inductive Response where
  | null
  | undefined
  | object (keys : List String)
  deriving DecidableEq, Repr

/-- The document client: `db.get(query).promise()` resolves or rejects. -/
abbrev Store := Query → Except JsError Response

/-- The record: `data[key]` for each field name. -/
abbrev Record := String → Value

/-- The string predicates of the external package `validator` (`const v = require('validator')`).
`isEmail` receives `value` as it is (the package decides what happens on a non-string);
`isLength` is only ever called on a truthy value, here a non-empty string, with
`{ max: param }`. -/
structure StringPredicates where
  isEmail : Value → Except JsError Bool
  isLength : String → Option String → Bool

/-- The module-level variables `db` and `errors`, and the ghost log of lookups. -/
structure Globals where
  db : Option Store
  errors : List Failure
  lookups : List Query

/-- Outcome of an evaluator: the value it returns (`none` for `undefined`, which `email` and
`equals` return after pushing) or the exception it throws, and the globals afterwards. -/
abbrev Outcome := Except JsError (Option Bool) × Globals

/-! ## JavaScript primitives used by the source -/

/-- The pieces of `cs` between occurrences of `sep`, on characters. -/
def splitChars (sep : Char) : List Char → List (List Char)
  | [] => [[]]
  | c :: cs =>
    if c = sep then [] :: splitChars sep cs
    else
      match splitChars sep cs with
      | [] => [[c]]
      | piece :: pieces => (c :: piece) :: pieces

/-- `s.split(sep)` for a one-character separator. -/
def split (sep : Char) (s : String) : List String :=
  (splitChars sep s.data).map String.mk

/-- Truthiness of `if (value)`. -/
def truthy : Value → Bool
  | .str s => s != ""
  | _ => false

/-- `value === param` for a parameter that is `null` or a string. -/
def strictEq : Value → Option String → Bool
  | .str s, some p => s == p
  | .null, none => true
  | _, _ => false

/-- Template-literal conversion of a parameter: `null` prints as `null`. -/
def showParam : Option String → String
  | none => "null"
  | some p => p

/-- Property name made from `q[1]`: a missing element is `undefined`, whose property name is
the string `undefined`. -/
def propName : Option String → String
  | none => "undefined"
  | some p => p

/-- `q[1]` as a value. -/
def elemValue : Option String → Value
  | none => .undefined
  | some p => .str p

/-- Assigning a property in an object literal: a later property with the same name
replaces the value of the earlier one. -/
def setProp (obj : List (String × Value)) (name : String) (v : Value) : List (String × Value) :=
  if obj.any (fun p => p.1 == name) then
    obj.map (fun p => if p.1 == name then (name, v) else p)
  else obj ++ [(name, v)]

/-- `Object.keys(x).length > 0` guarded by the two null checks (line 56). -/
def found : Response → Bool
  | .object keys => decide (0 < keys.length)
  | _ => false

/-- The test of line 146: `item === null || item === undefined || Object.keys(item).length === 0`. -/
def notFound : Response → Bool
  | .object keys => decide (keys.length = 0)
  | _ => true

/-- `errors.push(f)`. -/
def push (g : Globals) (f : Failure) : Globals :=
  { g with errors := g.errors ++ [f] }

/-- `await db.get(query).promise()`: a `TypeError` when `db` is still `null`, otherwise the
query is logged and the store answers. -/
def dbGet (g : Globals) (query : Query) : Except JsError Response × Globals :=
  match g.db with
  | none => (.error (.typeError "Cannot read properties of null (reading 'get')"), g)
  | some store => (store query, { g with lookups := g.lookups ++ [query] })

/-! ## The evaluators (`const validator = { ... }`) -/

/-- Lines 10-21. -/
def email (P : StringPredicates) (key : String) (value : Value) (g : Globals) : Outcome :=
  match P.isEmail value with
  | .error e => (.error e, g)
  | .ok valid =>
    if valid then (.ok (some true), g)
    else
      (.ok none,
        push g
          { rule := "email", key := key, value := value, param := none,
            error := "The " ++ key ++ " attribute must be a valid email." })

/-- Lines 22-34. -/
def equals (key : String) (value : Value) (param : Option String) (g : Globals) : Outcome :=
  let valid := strictEq value param
  if valid then (.ok (some true), g)
  else
    (.ok none,
      push g
        { rule := "exists", key := key, value := value, param := some param,
          error := "The " ++ key ++ " attribute must equal " ++ showParam param ++ "." })

/-- Lines 37-50 of `exists`: the query, or the `TypeError` of `param.split` on `null`. -/
def existsQuery (key : String) (value : Value) (param : Option String) : Except JsError Query :=
  match param with
  | none => .error (.typeError "Cannot read properties of null (reading 'split')")
  | some p =>
    let q := split ',' p
    let table := q.headD ""
    let tenant_id := q.get? 1
    .ok
      { TableName := table,
        AttributesToGet := [key],
        Key := setProp [("tenant_id", elemValue tenant_id)] key value }

/-- Lines 55-71 of `exists`: what happens once the lookup has answered `contact`. -/
def existsResume (key : String) (value : Value) (param : Option String) (contact : Response)
    (g : Globals) : Outcome :=
  let valid := found contact
  if valid then (.ok (some true), g)
  else
    (.ok (some false),
      push g
        { rule := "exists", key := key, value := value, param := some param,
          error := "The " ++ key ++ " does not exist." })

/-- Lines 35-72.  The name `exists` is a Lean keyword, hence the underscore. -/
def exists_ (key : String) (value : Value) (param : Option String) (g : Globals) : Outcome :=
  match existsQuery key value param with
  | .error e => (.error e, g)
  | .ok query =>
    match dbGet g query with
    | (.error e, g1) => (.error e, g1)
    | (.ok contact, g1) => existsResume key value param contact g1

/-- Lines 74-77 of `max`: `let valid = true; if (value) valid = v.isLength(value, { max: param })`. -/
def maxValid (P : StringPredicates) (value : Value) (param : Option String) : Bool :=
  if truthy value then
    match value with
    | .str s => P.isLength s param
    | _ => true
  else true

/-- Lines 73-93.  The name `max` is kept inside the namespace. -/
def max (P : StringPredicates) (key : String) (value : Value) (param : Option String)
    (g : Globals) : Outcome :=
  let valid := maxValid P value param
  if valid then (.ok (some true), g)
  else
    (.ok (some false),
      push g
        { rule := "max", key := key, value := value, param := some param,
          error := "The " ++ key ++ " has a max length of " ++ showParam param })

/-- Lines 94-107.  The rule `null`. -/
def null (key : String) (value : Value) (g : Globals) : Outcome :=
  let valid := decide (value = .null ∨ value = .undefined)
  if valid then (.ok (some true), g)
  else
    (.ok (some false),
      push g
        { rule := "null", key := key, value := value, param := none,
          error := "The " ++ key ++ " attribute must be null." })

/-- Lines 108-125. -/
def required (key : String) (value : Value) (g : Globals) : Outcome :=
  let valid := decide (value ≠ .null ∧ value ≠ .undefined)
  if valid then (.ok (some true), g)
  else
    (.ok (some false),
      push g
        { rule := "required", key := key, value := value, param := none,
          error := "The " ++ key ++ " attribute is required" })

/-- Lines 128-140 of `unique`: the query, or the `TypeError` of `param.split` on `null`. -/
def uniqueQuery (key : String) (value : Value) (param : Option String) : Except JsError Query :=
  match param with
  | none => .error (.typeError "Cannot read properties of null (reading 'split')")
  | some p =>
    let q := split ',' p
    let table := q.headD ""
    let column := q.get? 1
    .ok
      { TableName := table,
        AttributesToGet := [key],
        Key := setProp [] (propName column) value }

/-- Lines 152-162 of `unique`: the push and `return false` after the `if (value)` block. -/
def uniqueFail (key : String) (value : Value) (param : Option String) (g : Globals) : Outcome :=
  (.ok (some false),
    push g
      { rule := "unique", key := key, value := value, param := some param,
        error := "The " ++ key ++ " attribute already exists." })

/-- Lines 145-162 of `unique`: what happens once the lookup has answered `item`. -/
def uniqueResume (key : String) (value : Value) (param : Option String) (item : Response)
    (g : Globals) : Outcome :=
  let valid := notFound item
  if valid then (.ok (some true), g) else uniqueFail key value param g

/-- Lines 126-163. -/
def unique (key : String) (value : Value) (param : Option String) (g : Globals) : Outcome :=
  if truthy value then
    match uniqueQuery key value param with
    | .error e => (.error e, g)
    | .ok query =>
      match dbGet g query with
      | (.error e, g1) => (.error e, g1)
      | (.ok item, g1) => uniqueResume key value param item g1
  else uniqueFail key value param g

/-! ## `exports.init`, dispatch and `exports.validate` -/

/-- Lines 166-174: `db = new AWS.DynamoDB.DocumentClient()`.  The client that the
configuration yields is the argument; `errors` is left as it is. -/
def init (client : Store) (g : Globals) : Globals :=
  { g with db := some client }

/-- Functions that the object literal `validator` inherits from `Object.prototype` and that,
called as `validator[rule](key, data[key], param)`, return without throwing and without
touching `errors`. -/
def inheritedQuiet : List String :=
  ["constructor", "hasOwnProperty", "isPrototypeOf", "propertyIsEnumerable", "toLocaleString",
    "toString", "valueOf", "__lookupGetter__", "__lookupSetter__"]

/-- Inherited functions that throw a `TypeError` on these arguments: their second argument,
`data[key]`, is not a function. -/
def inheritedThrowing : List String :=
  ["__defineGetter__", "__defineSetter__"]

/-- Forget the value an evaluator returns: `validate` awaits it and drops it. -/
def discard (o : Outcome) : Except JsError Unit × Globals :=
  (o.1.map (fun _ => ()), o.2)

/-- Calling `validator[rule](key, data[key], param)` for a name that is not one of the seven
own properties: an inherited function runs (and leaves `errors` alone), anything else is
not a function. -/
def otherMember (rule : String) : Except JsError Unit :=
  if rule ∈ inheritedQuiet then .ok ()
  else if rule ∈ inheritedThrowing then .error (.typeError "Getter must be a function")
  else .error (.typeError "validator[rule] is not a function")

/-- Line 195: `await validator[rule](key, data[key], param)`. -/
def applyRule (P : StringPredicates) (rule key : String) (value : Value) (param : Option String)
    (g : Globals) : Except JsError Unit × Globals :=
  if rule = "email" then discard (email P key value g)
  else if rule = "equals" then discard (equals key value param g)
  else if rule = "exists" then discard (exists_ key value param g)
  else if rule = "max" then discard (max P key value param g)
  else if rule = "null" then discard (null key value g)
  else if rule = "required" then discard (required key value g)
  else if rule = "unique" then discard (unique key value param g)
  else (otherMember rule, g)

/-- Lines 190-192: `r = rule.split(':')`, `rule = r[0]`, `param = r[1] || null`.  The list
`r` is never empty, so the default of `headD` is never used. -/
def parseRule (rule : String) : String × Option String :=
  let r := split ':' rule
  (r.headD "",
    match r.get? 1 with
    | some p => if p = "" then none else some p
    | none => none)

/-- Lines 187-196: the inner loop over the tokens of one field. -/
def runRules (P : StringPredicates) (data : Record) (key : String) :
    List String → Globals → Except JsError Unit × Globals
  | [], g => (.ok (), g)
  | rule :: rest, g =>
    match applyRule P (parseRule rule).1 key (data key) (parseRule rule).2 g with
    | (.error e, g1) => (.error e, g1)
    | (.ok _, g1) => runRules P data key rest g1

/-- Lines 181-197: the outer loop over `Object.entries(rules)`. -/
def runFields (P : StringPredicates) (data : Record) :
    List (String × String) → Globals → Except JsError Unit × Globals
  | [], g => (.ok (), g)
  | (key, value) :: rest, g =>
    match runRules P data key (split '|' value) g with
    | (.error e, g1) => (.error e, g1)
    | (.ok _, g1) => runFields P data rest g1

/-- Lines 176-204. -/
def validate (P : StringPredicates) (data : Record) (rules : List (String × String))
    (g : Globals) : Except JsError ValidationResult × Globals :=
  match runFields P data rules { g with errors := [] } with
  | (.error e, g1) => (.error e, g1)
  | (.ok _, g1) => (.ok { valid := decide (g1.errors.length = 0), errors := g1.errors }, g1)

/-! ## Sample collaborators, for evaluating the code on concrete inputs -/

/-- Decimal digits to a number, `none` on anything else. -/
def parseDigits : List Char → Option Nat
  | [] => none
  | cs => cs.foldl (fun acc c => acc.bind fun n => if c.isDigit then some (10 * n + (c.toNat - 48)) else none)
      (some 0)

/-- Modelled from the spec: the two predicates of the external package `validator`, which is
not in the repository.  E-mail shape is left open by the spec, so `isEmail` only asks for an
`@` with something on both sides, and is a `TypeError` on a non-string, which is how the
package's functions check their argument; `isLength` is the spec's `length ≤ parameter` for
a decimal parameter. -/
def samplePredicates : StringPredicates where
  isEmail := fun value =>
    match value with
    | .str s =>
      .ok (match splitChars '@' s.data with
        | [l, d] => l != [] && d != []
        | _ => false)
    | _ => .error (.typeError "Expected a string")
  isLength := fun s param =>
    match param.bind (fun p => parseDigits p.data) with
    | some n => decide (s.length ≤ n)
    | none => false

/-- A store with one contact, `a@b.com` of tenant `tenant1`, in the collection `contacts`;
any other lookup finds nothing (an empty object), and the collection `down` is unreachable. -/
def sampleStore : Store := fun query =>
  if query.TableName = "down" then .error (.storeError "ServiceUnavailable")
  else if query.TableName = "contacts" ∧
      (query.Key = [("tenant_id", .str "tenant1"), ("email", .str "a@b.com")] ∨
        query.Key = [("email", .str "a@b.com")]) then
    .ok (.object ["Item"])
  else .ok (.object [])

/-- Globals after `init` with the sample store: nothing accumulated yet. -/
def sampleGlobals : Globals :=
  init sampleStore { db := none, errors := [], lookups := [] }

/-- Modelled from the spec: the parse of section 4.1, "split on the first `:` to obtain
`(name, parameter)`, where `parameter` is `null` if no `:` is present".  It is the
specification side of the comparison with `parseRule`. -/
def splitFirstColon (token : String) : String × Option String :=
  (String.mk (token.data.takeWhile (· != ':')),
    match token.data.dropWhile (· != ':') with
    | [] => none
    | _ :: rest => some (String.mk rest))

/-- Globals in which `errors` and the log are empty and `db` is as given. -/
def freshGlobals (db : Option Store) : Globals :=
  { db := db, errors := [], lookups := [] }

/-- The failures one rule application reports: what `validator[name](key, value, param)`
pushes when `errors` is empty before the call. -/
def applicationFailures (P : StringPredicates) (db : Option Store) (name key : String)
    (value : Value) (param : Option String) : List Failure :=
  (applyRule P name key value param (freshGlobals db)).2.errors

/-- Whether the rule application throws (or its promise rejects). -/
def applicationThrows (P : StringPredicates) (db : Option Store) (name key : String)
    (value : Value) (param : Option String) : Bool :=
  match (applyRule P name key value param (freshGlobals db)).1 with
  | .error _ => true
  | .ok _ => false

/-- Modelled from the spec: the lookup of section 6, `get(collection, primaryKey)`, finds a
record when the store answers with an object that has at least one property; no answer, an
empty projection and a failed lookup are not a record. -/
def specFinds (store : Store) (collection key : String) (primaryKey : List (String × Value)) :
    Bool :=
  match store { TableName := collection, AttributesToGet := [key], Key := primaryKey } with
  | .ok (.object (_ :: _)) => true
  | _ => false

/-- Modelled from the spec: the pass conditions of the rule table of section 4.2, one line
per rule, for a rule applied to `(key, value, parameter)`.  "Falsy" is absent, `null` or the
empty string; the e-mail shape and the length comparison are those of the package. -/
def specPasses (P : StringPredicates) (store : Store) (name key : String) (value : Value)
    (param : Option String) : Bool :=
  if name = "required" then decide (value ≠ .null ∧ value ≠ .undefined)
  else if name = "null" then decide (value = .null ∨ value = .undefined)
  else if name = "email" then decide (P.isEmail value = .ok true)
  else if name = "equals" then
    match param with
    | some p => decide (value = .str p)
    | none => false
  else if name = "max" then
    match value with
    | .str s => decide (s = "") || P.isLength s param
    | _ => true
  else if name = "exists" then
    match param.map (split ',') with
    | some [collection, tenantId] =>
      specFinds store collection key [("tenant_id", .str tenantId), (key, value)]
    | _ => false
  else if name = "unique" then
    match value, param.map (split ',') with
    | .str s, some [collection, column] =>
      decide (s = "") || !specFinds store collection key [(column, value)]
    | .str _, _ => false
    | _, _ => true
  else false

/-- The globals `g` after the effects recorded in `h`, a run started from fresh globals:
the pushes and the lookups of `h` come after those already in `g`. -/
def Globals.extend (g h : Globals) : Globals :=
  { db := g.db, errors := g.errors ++ h.errors, lookups := g.lookups ++ h.lookups }

/-- The record `{ confirm: 'no' }`. -/
def confirmNo : Record := fun field => if field = "confirm" then .str "no" else .undefined

/-- The record `{ name: 'abcdef', email: 'a@b.com' }`. -/
def contact : Record := fun field =>
  if field = "name" then .str "abcdef" else if field = "email" then .str "a@b.com" else .undefined

/-- The empty record `{}`. -/
def emptyRecord : Record := fun _ => .undefined

/-- One rule application: the name looked up in `validator` and the three arguments of the
call of line 195. -/
structure Application where
  name : String
  key : String
  value : Value
  param : Option String
  deriving DecidableEq, Repr

/-- The rule applications of a call in the order in which the two loops reach them: for
each entry of the rule-spec map, for each `|`-separated token, the parsed name, the field,
`data[key]` and the parsed parameter. -/
def applications (data : Record) (rules : List (String × String)) : List Application :=
  rules.flatMap fun entry =>
    (split '|' entry.2).map fun token =>
      { name := (parseRule token).1, key := entry.1, value := data entry.1,
        param := (parseRule token).2 }

/-- The two loops of `validate` as a single loop over the rule applications. -/
def runApplications (P : StringPredicates) :
    List Application → Globals → Except JsError Unit × Globals
  | [], g => (.ok (), g)
  | a :: rest, g =>
    match applyRule P a.name a.key a.value a.param g with
    | (.error e, g1) => (.error e, g1)
    | (.ok _, g1) => runApplications P rest g1

/-- A returned `{ valid, errors }`: `valid` is a boolean, `errors` is the array object. -/
structure ResultRef where
  valid : Bool
  errors : Nat
  deriving DecidableEq, Repr

/-- The module-level variables, with the arrays as objects, and the ghost log. -/
structure Shared where
  db : Option Store
  errors : Nat
  heap : List (List Failure)
  lookups : List Query

/-- The globals as the evaluators see them: `errors` is the content of the array the
variable refers to. -/
def Shared.view (s : Shared) : Globals :=
  { db := s.db, errors := s.heap.getD s.errors [], lookups := s.lookups }

/-- The effect of a piece of code on the array the variable `errors` refers to, and on the
log. -/
def Shared.writeBack (s : Shared) (g : Globals) : Shared :=
  { s with heap := s.heap.set s.errors g.errors, lookups := g.lookups }

/-- Line 178: `errors = []`. -/
def Shared.reset (s : Shared) : Shared :=
  { s with errors := s.heap.length, heap := s.heap ++ [[]] }

/-- Lines 176-204 with the arrays as objects, for a call that runs to completion with
nothing else running in between: the loops work on the array created by line 178, and the
result holds that array. -/
def validateShared (P : StringPredicates) (data : Record) (rules : List (String × String))
    (s : Shared) : Except JsError ResultRef × Shared :=
  match runFields P data rules s.reset.view with
  | (.error e, g1) => (.error e, s.reset.writeBack g1)
  | (.ok _, g1) =>
    (.ok { valid := decide (g1.errors.length = 0), errors := s.reset.errors },
      s.reset.writeBack g1)

/-- Where a call of `validate` stands between two pieces of its run. -/
inductive Task where
  | called (apps : List Application)
  | awaitingLookup (a : Application) (answer : Except JsError Response)
      (rest : List Application)
  | awaitingRule (rest : List Application)
  | returned (result : Except JsError ResultRef)
  deriving DecidableEq, Repr

/-- The piece that starts at the head of the loop: with no application left, lines
199-203 read the variable `errors` and return; otherwise the next evaluator is called and
runs up to its `await` of the lookup (whose answer, or the `TypeError` of a `db` that is
still `null`, is delivered to the next piece) or to its end. -/
def enter (P : StringPredicates) : List Application → Shared → Task × Shared
  | [], s =>
    (.returned (.ok { valid := decide (s.view.errors.length = 0), errors := s.errors }), s)
  | a :: rest, s =>
    if a.name = "exists" then
      match existsQuery a.key a.value a.param with
      | .error e => (.returned (.error e), s)
      | .ok query =>
        (.awaitingLookup a (dbGet s.view query).1 rest, s.writeBack (dbGet s.view query).2)
    else if a.name = "unique" ∧ truthy a.value = true then
      match uniqueQuery a.key a.value a.param with
      | .error e => (.returned (.error e), s)
      | .ok query =>
        (.awaitingLookup a (dbGet s.view query).1 rest, s.writeBack (dbGet s.view query).2)
    else
      match applyRule P a.name a.key a.value a.param s.view with
      | (.error e, g1) => (.returned (.error e), s.writeBack g1)
      | (.ok _, g1) => (.awaitingRule rest, s.writeBack g1)

/-- The piece that runs when the lookup has answered: lines 55-71 of `exists`, lines
145-162 of `unique`, on the array the variable `errors` refers to by then. -/
def resume (a : Application) (answer : Except JsError Response) (rest : List Application)
    (s : Shared) : Task × Shared :=
  match answer with
  | .error e => (.returned (.error e), s)
  | .ok r =>
    if a.name = "exists" then
      (.awaitingRule rest, s.writeBack (existsResume a.key a.value a.param r s.view).2)
    else (.awaitingRule rest, s.writeBack (uniqueResume a.key a.value a.param r s.view).2)

/-- Lines 199-203 after the loops have ended with `r`: the rejection, or the result built
from the content `g.errors` of the array `ref`. -/
def returnOf (r : Except JsError Unit) (g : Globals) (ref : Nat) : Except JsError ResultRef :=
  match r with
  | .error e => .error e
  | .ok _ => .ok { valid := decide (g.errors.length = 0), errors := ref }

/-- One piece of the run of a call. -/
def step (P : StringPredicates) : Task → Shared → Task × Shared
  | .called apps, s => enter P apps s.reset
  | .awaitingLookup a answer rest, s => resume a answer rest s
  | .awaitingRule rest, s => enter P rest s
  | .returned result, s => (.returned result, s)

/-- A call run alone: `n` pieces, one after another. -/
def runAlone (P : StringPredicates) : Nat → Task × Shared → Task × Shared
  | 0, c => c
  | n + 1, c => runAlone P n (step P c.1 c.2)

/-- Two calls whose pieces run in the order given by the schedule: `false` lets the first
call run its next piece, `true` the second. -/
def runSchedule (P : StringPredicates) :
    List Bool → (Task × Task) × Shared → (Task × Task) × Shared
  | [], c => c
  | false :: schedule, c =>
    runSchedule P schedule (((step P c.1.1 c.2).1, c.1.2), (step P c.1.1 c.2).2)
  | true :: schedule, c =>
    runSchedule P schedule ((c.1.1, (step P c.1.2 c.2).1), (step P c.1.2 c.2).2)

/-- The state after `init` with the sample store: the variable `errors` refers to the
array created by line 7. -/
def sampleShared : Shared :=
  { db := some sampleStore, errors := 0, heap := [[]], lookups := [] }

/-- The record `{ email: null }`. -/
def emailNull : Record := fun field => if field = "email" then .null else .undefined

/-! ## Lemmas on `split` -/

theorem splitChars_ne_nil (sep : Char) (cs : List Char) : splitChars sep cs ≠ [] := by
  cases cs with
  | nil => simp [splitChars]
  | cons c cs =>
    unfold splitChars
    split_ifs
    · simp
    · split <;> simp

theorem splitChars_cons_sep (sep : Char) (cs : List Char) :
    splitChars sep (sep :: cs) = [] :: splitChars sep cs := by
  simp [splitChars]

theorem splitChars_cons_ne (sep c : Char) (cs : List Char) (h : ¬ c = sep) :
    splitChars sep (c :: cs) =
      (c :: (splitChars sep cs).headD []) :: (splitChars sep cs).tail := by
  have hne := splitChars_ne_nil sep cs
  rw [splitChars, if_neg h]
  cases hs : splitChars sep cs with
  | nil => exact absurd hs hne
  | cons piece pieces => rfl

/-- The first piece is what precedes the first separator; the other pieces are the pieces
of what follows it. -/
theorem splitChars_eq (sep : Char) (cs : List Char) :
    splitChars sep cs =
      cs.takeWhile (· != sep) ::
        (match cs.dropWhile (· != sep) with
          | [] => []
          | _ :: rest => splitChars sep rest) := by
  induction cs with
  | nil => simp [splitChars]
  | cons c cs ih =>
    by_cases h : c = sep
    · subst h
      rw [splitChars_cons_sep]
      simp
    · have hb : (c != sep) = true := by simpa using h
      rw [splitChars_cons_ne sep c cs h, ih]
      simp [List.takeWhile_cons, List.dropWhile_cons, hb]

theorem splitChars_of_not_mem (sep : Char) (cs : List Char) (h : sep ∉ cs) :
    splitChars sep cs = [cs] := by
  induction cs with
  | nil => simp [splitChars]
  | cons c cs ih =>
    have hc : ¬ c = sep := fun e => h (by simp [e])
    have ht : sep ∉ cs := fun m => h (by simp [m])
    rw [splitChars_cons_ne sep c cs hc, ih ht]
    rfl

theorem splitChars_append (sep : Char) (a b : List Char) (h : sep ∉ a) :
    splitChars sep (a ++ sep :: b) = a :: splitChars sep b := by
  induction a with
  | nil => simp [splitChars_cons_sep]
  | cons c a ih =>
    have hc : ¬ c = sep := fun e => h (by simp [e])
    have ht : sep ∉ a := fun m => h (by simp [m])
    have e : (c :: a) ++ sep :: b = c :: (a ++ sep :: b) := rfl
    rw [e, splitChars_cons_ne sep c _ hc, ih ht]
    rfl

/-- A two-part parameter splits into its two parts. -/
theorem split_two_parts (sep : Char) (a b : String) (ha : sep ∉ a.data) (hb : sep ∉ b.data) :
    split sep (a ++ String.singleton sep ++ b) = [a, b] := by
  have e : (a ++ String.singleton sep ++ b).data = a.data ++ sep :: b.data := by
    simp [String.data_append, String.singleton]
  unfold split
  rw [e, splitChars_append sep _ _ ha, splitChars_of_not_mem sep _ hb]
  rfl

theorem split_comma (a b : String) (ha : ',' ∉ a.data) (hb : ',' ∉ b.data) :
    split ',' (a ++ "," ++ b) = [a, b] :=
  split_two_parts ',' a b ha hb

theorem mk_eq_empty_iff (l : List Char) : String.mk l = "" ↔ l = [] := by
  constructor
  · intro h
    have := congrArg String.data h
    simpa using this
  · intro h
    subst h
    rfl

/-! ## The parse of a rule token -/

/-- C5 (counterexample): on the token `equals:a:b` the engine's parse gives the parameter
`a`, whereas the text after the first `:` is `a:b`; on `equals:` it gives `null`, whereas
the text after the first `:` is the empty string. -/
theorem parseRule_ne_splitFirstColon :
    parseRule "equals:a:b" = ("equals", some "a") ∧
      splitFirstColon "equals:a:b" = ("equals", some "a:b") ∧
      parseRule "equals:a:b" ≠ splitFirstColon "equals:a:b" ∧
      parseRule "equals:" = ("equals", none) ∧
      splitFirstColon "equals:" = ("equals", some "") := by
  decide

/-- C5 (amended): for every rule token, the parsed name is the text before the first `:`
(the whole token when there is none) and the parsed parameter is the text after the first
`:` up to the next `:` or the end of the token, replaced by `null` when that text is empty,
in particular when the token has no `:`. -/
theorem parseRule_eq (token : String) :
    parseRule token =
      (String.mk (token.data.takeWhile (· != ':')),
        if ((token.data.dropWhile (· != ':')).drop 1).takeWhile (· != ':') = [] then none
        else
          some (String.mk (((token.data.dropWhile (· != ':')).drop 1).takeWhile (· != ':')))) := by
  unfold parseRule split
  rw [splitChars_eq]
  cases h : token.data.dropWhile (· != ':') with
  | nil => simp
  | cons c rest =>
    simp only [List.map_cons, List.headD_cons, List.drop_succ_cons, List.drop_zero]
    rw [splitChars_eq]
    simp [mk_eq_empty_iff]

/-! ## The result of `validate` -/

/-- C2: whenever `validate` returns a result, its `valid` field is true if and only if its
`errors` sequence is empty. -/
theorem validate_valid_iff_errors_empty (P : StringPredicates) (data : Record)
    (rules : List (String × String)) (g : Globals) (r : ValidationResult)
    (h : (validate P data rules g).1 = .ok r) : r.valid = true ↔ r.errors = [] := by
  unfold validate at h
  split at h
  · simp at h
  · simp only [Except.ok.injEq] at h
    subst h
    simp

/-- C2 (witness): the call on `{ confirm: 'no' }` with `{ confirm: 'equals:yes|required' }`
returns a result, to which the equivalence applies. -/
theorem validate_valid_iff_errors_empty_witness :
    ∃ r, (validate samplePredicates confirmNo [("confirm", "equals:yes|required")]
        sampleGlobals).1 = .ok r ∧ r.errors.length = 1 ∧ (r.valid = true ↔ r.errors = []) :=
  ⟨{ valid := false,
      errors := [⟨"exists", "confirm", .str "no", some (some "yes"),
        "The confirm attribute must equal yes."⟩] },
    by decide, by decide,
    validate_valid_iff_errors_empty samplePredicates confirmNo
      [("confirm", "equals:yes|required")] sampleGlobals _ (by decide)⟩

/-! ## The evaluators -/

/-- C6 (the code at the failing input): with the empty string, `null` or an absent value
and the parameter `contacts,email`, for which the rule table lets `unique` pass, `unique`
makes no lookup but returns `false` and pushes one failure. -/
theorem unique_falsy_value_fails :
    specPasses samplePredicates sampleStore "unique" "email" (.str "")
        (some "contacts,email") = true ∧
      (unique "email" (.str "") (some "contacts,email") sampleGlobals).1 = .ok (some false) ∧
      (unique "email" (.str "") (some "contacts,email") sampleGlobals).2.errors =
        [⟨"unique", "email", .str "", some (some "contacts,email"),
          "The email attribute already exists."⟩] ∧
      (unique "email" (.str "") (some "contacts,email") sampleGlobals).2.lookups = [] ∧
      (unique "email" .null (some "contacts,email") sampleGlobals).1 = .ok (some false) ∧
      (unique "email" .null (some "contacts,email") sampleGlobals).2.errors =
        [⟨"unique", "email", .null, some (some "contacts,email"),
          "The email attribute already exists."⟩] ∧
      (unique "email" .undefined (some "contacts,email") sampleGlobals).1 = .ok (some false) ∧
      (unique "email" .undefined (some "contacts,email") sampleGlobals).2.errors =
        [⟨"unique", "email", .undefined, some (some "contacts,email"),
          "The email attribute already exists."⟩] := by
  decide

/-- C7: on a non-empty string value and a parameter `<collection>,<column>`, with the store
initialised and answering, `unique` makes exactly one lookup, in `<collection>` with the key
`{ <column>: value }`; it returns `true` and pushes nothing if and only if the answer is
`null`, `undefined` or an empty object, and otherwise pushes exactly one failure with rule
`unique`, the key, the value, the parameter and the message
`The {key} attribute already exists.`. -/
theorem unique_truthy_value (key v collection column : String) (store : Store) (g : Globals)
    (item : Response) (hv : v ≠ "") (hcollection : ',' ∉ collection.data)
    (hcolumn : ',' ∉ column.data) (hdb : g.db = some store)
    (hget : store
      { TableName := collection, AttributesToGet := [key], Key := [(column, .str v)] } =
        .ok item) :
    unique key (.str v) (some (collection ++ "," ++ column)) g =
      if item = .null ∨ item = .undefined ∨ item = .object [] then
        (.ok (some true),
          { g with
            lookups := g.lookups ++
              [{ TableName := collection, AttributesToGet := [key],
                 Key := [(column, .str v)] }] })
      else
        (.ok (some false),
          { g with
            errors := g.errors ++
              [{ rule := "unique", key := key, value := .str v,
                 param := some (some (collection ++ "," ++ column)),
                 error := "The " ++ key ++ " attribute already exists." }],
            lookups := g.lookups ++
              [{ TableName := collection, AttributesToGet := [key],
                 Key := [(column, .str v)] }] }) := by
  have hq : uniqueQuery key (.str v) (some (collection ++ "," ++ column)) =
      .ok { TableName := collection, AttributesToGet := [key], Key := [(column, .str v)] } := by
    simp [uniqueQuery, split_comma collection column hcollection hcolumn, propName, setProp]
  have ht : truthy (.str v) = true := by simpa [truthy] using hv
  unfold unique
  rw [if_pos ht, hq]
  simp only [dbGet, hdb, hget]
  cases item with
  | null => simp [uniqueResume, notFound]
  | undefined => simp [uniqueResume, notFound]
  | object keys =>
    cases keys with
    | nil => simp [uniqueResume, notFound]
    | cons k ks => simp [uniqueResume, notFound, uniqueFail, push]

/-- C7 (witness): `unique:contacts,email` on the value `a@b.com`, which the sample store
holds: one lookup, one failure. -/
theorem unique_truthy_value_witness :
    ("a@b.com" ≠ "" ∧ ',' ∉ "contacts".data ∧ ',' ∉ "email".data) ∧
      unique "email" (.str "a@b.com") (some ("contacts" ++ "," ++ "email")) sampleGlobals =
        if Response.object ["Item"] = .null ∨ Response.object ["Item"] = .undefined ∨
            Response.object ["Item"] = .object [] then
          (.ok (some true),
            { sampleGlobals with
              lookups := sampleGlobals.lookups ++
                [{ TableName := "contacts", AttributesToGet := ["email"],
                   Key := [("email", .str "a@b.com")] }] })
        else
          (.ok (some false),
            { sampleGlobals with
              errors := sampleGlobals.errors ++
                [{ rule := "unique", key := "email", value := .str "a@b.com",
                   param := some (some ("contacts" ++ "," ++ "email")),
                   error := "The " ++ "email" ++ " attribute already exists." }],
              lookups := sampleGlobals.lookups ++
                [{ TableName := "contacts", AttributesToGet := ["email"],
                   Key := [("email", .str "a@b.com")] }] }) :=
  ⟨by decide,
    unique_truthy_value "email" "a@b.com" "contacts" "email" sampleStore sampleGlobals
      (.object ["Item"]) (by decide) (by decide) (by decide) rfl (by decide)⟩

/-- C8: on any value (`null` and absent included) and a parameter `<collection>,<tenantId>`,
with the store initialised and answering, `exists` makes exactly one lookup, in
`<collection>` with the key object `{ "tenant_id": tenantId, [key]: value }` (when the key
is itself `tenant_id` the computed property replaces the first one); it returns `true` and
pushes nothing if and only if the answer is an object with at least one property, and
otherwise pushes exactly one failure with rule `exists`, the key, the value, the parameter
and the message `The {key} does not exist.`. -/
theorem exists_lookup (key collection tenantId : String) (value : Value) (store : Store)
    (g : Globals) (answer : Response) (hcollection : ',' ∉ collection.data)
    (htenant : ',' ∉ tenantId.data) (hdb : g.db = some store)
    (hget : store
      { TableName := collection, AttributesToGet := [key],
        Key := if key = "tenant_id" then [("tenant_id", value)]
          else [("tenant_id", .str tenantId), (key, value)] } = .ok answer) :
    exists_ key value (some (collection ++ "," ++ tenantId)) g =
      if answer ≠ .null ∧ answer ≠ .undefined ∧ answer ≠ .object [] then
        (.ok (some true),
          { g with
            lookups := g.lookups ++
              [{ TableName := collection, AttributesToGet := [key],
                 Key := if key = "tenant_id" then [("tenant_id", value)]
                   else [("tenant_id", .str tenantId), (key, value)] }] })
      else
        (.ok (some false),
          { g with
            errors := g.errors ++
              [{ rule := "exists", key := key, value := value,
                 param := some (some (collection ++ "," ++ tenantId)),
                 error := "The " ++ key ++ " does not exist." }],
            lookups := g.lookups ++
              [{ TableName := collection, AttributesToGet := [key],
                 Key := if key = "tenant_id" then [("tenant_id", value)]
                   else [("tenant_id", .str tenantId), (key, value)] }] }) := by
  have hkey : setProp [("tenant_id", Value.str tenantId)] key value =
      if key = "tenant_id" then [("tenant_id", value)]
      else [("tenant_id", .str tenantId), (key, value)] := by
    by_cases hk : key = "tenant_id"
    · subst hk
      simp [setProp]
    · have hk2 : ¬ "tenant_id" = key := fun e => hk e.symm
      simp [setProp, hk, hk2]
  have hq : existsQuery key value (some (collection ++ "," ++ tenantId)) =
      .ok { TableName := collection, AttributesToGet := [key],
            Key := if key = "tenant_id" then [("tenant_id", value)]
              else [("tenant_id", .str tenantId), (key, value)] } := by
    simp [existsQuery, split_comma collection tenantId hcollection htenant, elemValue, hkey]
  unfold exists_
  rw [hq]
  simp only [dbGet, hdb, hget]
  cases answer with
  | null => simp [existsResume, found, push]
  | undefined => simp [existsResume, found, push]
  | object keys =>
    cases keys with
    | nil => simp [existsResume, found, push]
    | cons k ks => simp [existsResume, found]

/-- C8 (witness): `exists:contacts,tenant1` on the key `email` with an absent value: the
sample store is asked for `{ tenant_id: 'tenant1', email: undefined }`, answers with an
empty object, and one failure is pushed. -/
theorem exists_lookup_witness :
    (',' ∉ "contacts".data ∧ ',' ∉ "tenant1".data) ∧
      (exists_ "email" .undefined (some "contacts,tenant1") sampleGlobals).1 =
        .ok (some false) ∧
      (exists_ "email" .undefined (some "contacts,tenant1") sampleGlobals).2.errors =
        [⟨"exists", "email", .undefined, some (some "contacts,tenant1"),
          "The email does not exist."⟩] ∧
      (exists_ "email" .undefined (some "contacts,tenant1") sampleGlobals).2.lookups =
        [⟨"contacts", ["email"], [("tenant_id", .str "tenant1"), ("email", .undefined)]⟩] := by
  have h := exists_lookup "email" "contacts" "tenant1" .undefined sampleStore sampleGlobals
    (.object []) (by decide) (by decide) rfl (by decide)
  have e : ("contacts" ++ "," ++ "tenant1" : String) = "contacts,tenant1" := by decide
  rw [e] at h
  rw [h]
  exact ⟨by decide, by decide, by decide, by decide⟩

/-- C9: with a parameter that is the decimal text of `n`, `max` returns `true` and pushes
nothing on an absent value, on `null` and on the empty string; on a non-empty string, for
which the length predicate of the package says whether the length is at most `n`, it
returns `true` and pushes nothing if and only if the length is at most `n`, and otherwise
pushes exactly one failure with rule `max`, the key, the value, the parameter and the
message `The {key} has a max length of {param}`, without a final period. -/
theorem max_spec (P : StringPredicates) (key v : String) (n : Nat) (g : Globals)
    (hv : v ≠ "") (hlength : P.isLength v (some (Nat.repr n)) = decide (v.length ≤ n)) :
    max P key .undefined (some (Nat.repr n)) g = (.ok (some true), g) ∧
      max P key .null (some (Nat.repr n)) g = (.ok (some true), g) ∧
      max P key (.str "") (some (Nat.repr n)) g = (.ok (some true), g) ∧
      max P key (.str v) (some (Nat.repr n)) g =
        if v.length ≤ n then (.ok (some true), g)
        else
          (.ok (some false),
            { g with
              errors := g.errors ++
                [{ rule := "max", key := key, value := .str v, param := some (some (Nat.repr n)),
                   error := "The " ++ key ++ " has a max length of " ++ Nat.repr n }] }) := by
  refine ⟨by simp [max, maxValid, truthy], by simp [max, maxValid, truthy],
    by simp [max, maxValid, truthy], ?_⟩
  have ht : truthy (.str v) = true := by simpa [truthy] using hv
  unfold max maxValid
  simp only [ht, if_true, hlength]
  by_cases hle : v.length ≤ n
  · simp [hle]
  · simp [hle, push, showParam]

/-- C9 (witness): key `name`, value `abcdef`, parameter `5` gives the message
`The name has a max length of 5`. -/
theorem max_spec_witness :
    ("abcdef" ≠ "" ∧
        samplePredicates.isLength "abcdef" (some (Nat.repr 5)) =
          decide ("abcdef".length ≤ 5)) ∧
      max samplePredicates "name" (.str "abcdef") (some "5") sampleGlobals =
        (.ok (some false),
          { sampleGlobals with
            errors :=
              [{ rule := "max", key := "name", value := .str "abcdef", param := some (some "5"),
                 error := "The name has a max length of 5" }] }) :=
  ⟨by decide,
    (max_spec samplePredicates "name" "abcdef" 5 sampleGlobals (by decide) (by decide)).2.2.2⟩

/-- C10: with a string parameter, `equals` returns `true` and pushes nothing if and only if
the value is that same string (`null` and an absent value never are), and otherwise pushes
exactly one failure, for the key, the value and the parameter, whose message is
`The {key} attribute must equal {param}.`; the entry carries the rule name `exists`.  For
key `confirm`, value `no`, parameter `yes` the message is
`The confirm attribute must equal yes.`. -/
theorem equals_spec (key p : String) (value : Value) (g : Globals) :
    (equals key value (some p) g =
        if value = .str p then (.ok (some true), g)
        else
          (.ok none,
            { g with
              errors := g.errors ++
                [{ rule := "exists", key := key, value := value, param := some (some p),
                   error := "The " ++ key ++ " attribute must equal " ++ p ++ "." }] })) ∧
      (equals "confirm" (.str "no") (some "yes") g).2.errors =
        g.errors ++
          [{ rule := "exists", key := "confirm", value := .str "no", param := some (some "yes"),
             error := "The confirm attribute must equal yes." }] := by
  constructor
  · unfold equals
    cases value with
    | undefined => simp [strictEq, push, showParam]
    | null => simp [strictEq, push, showParam]
    | str s =>
      by_cases hs : s = p
      · simp [strictEq, hs]
      · simp [strictEq, hs, push, showParam]
  · rfl

/-! ## Every evaluator only appends to `errors` -/

theorem Globals.extend_fresh (g : Globals) : g.extend (freshGlobals g.db) = g := by
  simp [Globals.extend, freshGlobals]

theorem email_frame (P : StringPredicates) (key : String) (value : Value) (g : Globals) :
    email P key value g =
      ((email P key value (freshGlobals g.db)).1,
        g.extend (email P key value (freshGlobals g.db)).2) := by
  unfold email
  cases P.isEmail value with
  | error e => simp [Globals.extend, freshGlobals]
  | ok valid => cases valid <;> simp [Globals.extend, freshGlobals, push]

theorem equals_frame (key : String) (value : Value) (param : Option String) (g : Globals) :
    equals key value param g =
      ((equals key value param (freshGlobals g.db)).1,
        g.extend (equals key value param (freshGlobals g.db)).2) := by
  unfold equals
  cases strictEq value param <;> simp [Globals.extend, freshGlobals, push]

theorem exists_frame (key : String) (value : Value) (param : Option String) (g : Globals) :
    exists_ key value param g =
      ((exists_ key value param (freshGlobals g.db)).1,
        g.extend (exists_ key value param (freshGlobals g.db)).2) := by
  obtain ⟨db, errs, looks⟩ := g
  unfold exists_
  cases existsQuery key value param with
  | error e => simp [Globals.extend, freshGlobals]
  | ok query =>
    cases db with
    | none => simp [dbGet, Globals.extend, freshGlobals]
    | some store =>
      cases hs : store query with
      | error e => simp [dbGet, hs, Globals.extend, freshGlobals]
      | ok answer =>
        cases hf : found answer <;>
          simp [dbGet, hs, hf, existsResume, Globals.extend, freshGlobals, push]

theorem max_frame (P : StringPredicates) (key : String) (value : Value) (param : Option String)
    (g : Globals) :
    max P key value param g =
      ((max P key value param (freshGlobals g.db)).1,
        g.extend (max P key value param (freshGlobals g.db)).2) := by
  unfold max
  cases maxValid P value param <;> simp [Globals.extend, freshGlobals, push]

theorem null_frame (key : String) (value : Value) (g : Globals) :
    null key value g =
      ((null key value (freshGlobals g.db)).1, g.extend (null key value (freshGlobals g.db)).2) := by
  by_cases h : value = .null ∨ value = .undefined <;>
    simp [null, h, Globals.extend, freshGlobals, push]

theorem required_frame (key : String) (value : Value) (g : Globals) :
    required key value g =
      ((required key value (freshGlobals g.db)).1,
        g.extend (required key value (freshGlobals g.db)).2) := by
  by_cases h : value ≠ .null ∧ value ≠ .undefined <;>
    simp [required, h, Globals.extend, freshGlobals, push]

theorem unique_frame (key : String) (value : Value) (param : Option String) (g : Globals) :
    unique key value param g =
      ((unique key value param (freshGlobals g.db)).1,
        g.extend (unique key value param (freshGlobals g.db)).2) := by
  obtain ⟨db, errs, looks⟩ := g
  unfold unique
  cases truthy value with
  | false => simp [uniqueFail, Globals.extend, freshGlobals, push]
  | true =>
    simp only [if_true]
    cases uniqueQuery key value param with
    | error e => simp [Globals.extend, freshGlobals]
    | ok query =>
      cases db with
      | none => simp [dbGet, Globals.extend, freshGlobals]
      | some store =>
        cases hs : store query with
        | error e => simp [dbGet, hs, Globals.extend, freshGlobals]
        | ok answer =>
          cases hf : notFound answer <;>
            simp [dbGet, hs, hf, uniqueResume, uniqueFail, Globals.extend, freshGlobals, push]

theorem discard_frame (o o0 : Outcome) (g : Globals) (h : o = (o0.1, g.extend o0.2)) :
    discard o = ((discard o0).1, g.extend (discard o0).2) := by
  subst h
  rfl

theorem applyRule_email (P : StringPredicates) (key : String) (value : Value)
    (param : Option String) (g : Globals) :
    applyRule P "email" key value param g = discard (email P key value g) := by
  simp [applyRule]

theorem applyRule_equals (P : StringPredicates) (key : String) (value : Value)
    (param : Option String) (g : Globals) :
    applyRule P "equals" key value param g = discard (equals key value param g) := by
  simp [applyRule]

theorem applyRule_exists (P : StringPredicates) (key : String) (value : Value)
    (param : Option String) (g : Globals) :
    applyRule P "exists" key value param g = discard (exists_ key value param g) := by
  simp [applyRule]

theorem applyRule_max (P : StringPredicates) (key : String) (value : Value)
    (param : Option String) (g : Globals) :
    applyRule P "max" key value param g = discard (max P key value param g) := by
  simp [applyRule]

theorem applyRule_null (P : StringPredicates) (key : String) (value : Value)
    (param : Option String) (g : Globals) :
    applyRule P "null" key value param g = discard (null key value g) := by
  simp [applyRule]

theorem applyRule_required (P : StringPredicates) (key : String) (value : Value)
    (param : Option String) (g : Globals) :
    applyRule P "required" key value param g = discard (required key value g) := by
  simp [applyRule]

theorem applyRule_unique (P : StringPredicates) (key : String) (value : Value)
    (param : Option String) (g : Globals) :
    applyRule P "unique" key value param g = discard (unique key value param g) := by
  simp [applyRule]

theorem applyRule_other (P : StringPredicates) (name key : String) (value : Value)
    (param : Option String) (g : Globals) (h1 : name ≠ "email") (h2 : name ≠ "equals")
    (h3 : name ≠ "exists") (h4 : name ≠ "max") (h5 : name ≠ "null") (h6 : name ≠ "required")
    (h7 : name ≠ "unique") :
    applyRule P name key value param g = (otherMember name, g) := by
  simp only [applyRule, if_neg h1, if_neg h2, if_neg h3, if_neg h4, if_neg h5, if_neg h6,
    if_neg h7]

/-- Running a rule application on `g` is running it on fresh globals and appending what it
pushed and looked up to `g`. -/
theorem applyRule_frame (P : StringPredicates) (name key : String) (value : Value)
    (param : Option String) (g : Globals) :
    applyRule P name key value param g =
      ((applyRule P name key value param (freshGlobals g.db)).1,
        g.extend (applyRule P name key value param (freshGlobals g.db)).2) := by
  by_cases h1 : name = "email"
  · subst h1
    rw [applyRule_email, applyRule_email]
    exact discard_frame _ _ g (email_frame P key value g)
  by_cases h2 : name = "equals"
  · subst h2
    rw [applyRule_equals, applyRule_equals]
    exact discard_frame _ _ g (equals_frame key value param g)
  by_cases h3 : name = "exists"
  · subst h3
    rw [applyRule_exists, applyRule_exists]
    exact discard_frame _ _ g (exists_frame key value param g)
  by_cases h4 : name = "max"
  · subst h4
    rw [applyRule_max, applyRule_max]
    exact discard_frame _ _ g (max_frame P key value param g)
  by_cases h5 : name = "null"
  · subst h5
    rw [applyRule_null, applyRule_null]
    exact discard_frame _ _ g (null_frame key value g)
  by_cases h6 : name = "required"
  · subst h6
    rw [applyRule_required, applyRule_required]
    exact discard_frame _ _ g (required_frame key value g)
  by_cases h7 : name = "unique"
  · subst h7
    rw [applyRule_unique, applyRule_unique]
    exact discard_frame _ _ g (unique_frame key value param g)
  rw [applyRule_other P name key value param g h1 h2 h3 h4 h5 h6 h7,
    applyRule_other P name key value param _ h1 h2 h3 h4 h5 h6 h7]
  simp [Globals.extend_fresh]

/-! ## Every rule application pushes at most one failure -/

theorem applyRule_of_not_throws (P : StringPredicates) (name key : String) (value : Value)
    (param : Option String) (g : Globals)
    (h : applicationThrows P g.db name key value param = false) :
    applyRule P name key value param g =
      (.ok (),
        { db := g.db,
          errors := g.errors ++ applicationFailures P g.db name key value param,
          lookups := g.lookups ++
            (applyRule P name key value param (freshGlobals g.db)).2.lookups }) := by
  rw [applyRule_frame]
  unfold applicationThrows at h
  unfold applicationFailures
  cases hr : (applyRule P name key value param (freshGlobals g.db)).1 with
  | error e => simp [hr] at h
  | ok u => rfl

/-- C3 (the code at the failing input): on the empty record with the rules
`{ email: 'unique:contacts,email' }` the only rule application meets its pass condition of
the rule table (the value is absent), and yet `validate` returns `valid: false` with one
`unique` failure. -/
theorem validate_unique_absent_value :
    specPasses samplePredicates sampleStore "unique" "email" (emptyRecord "email")
        (some "contacts,email") = true ∧
      (validate samplePredicates emptyRecord [("email", "unique:contacts,email")]
          sampleGlobals).1 =
        .ok { valid := false,
              errors :=
                [⟨"unique", "email", .undefined, some (some "contacts,email"),
                  "The email attribute already exists."⟩] } := by
  decide

/-- C4 (the code at the failing input): on `{ confirm: 'no' }` with the rules
`{ confirm: 'equals:yes' }` the only rule application, `equals`, violates its pass
condition, and the single entry of `errors` carries the rule name `exists`, not `equals`. -/
theorem validate_equals_failure_rule_name :
    specPasses samplePredicates sampleStore "equals" "confirm" (confirmNo "confirm")
        (some "yes") = false ∧
      (validate samplePredicates confirmNo [("confirm", "equals:yes")] sampleGlobals).1 =
        .ok { valid := false,
              errors :=
                [⟨"exists", "confirm", .str "no", some (some "yes"),
                  "The confirm attribute must equal yes."⟩] } ∧
      ((validate samplePredicates confirmNo [("confirm", "equals:yes")]
          sampleGlobals).2.errors.map Failure.rule) ≠ ["equals"] := by
  decide

/-! ## The rules `required`, `null` and `email` -/

/-- C11: `required` returns `true` and pushes nothing if and only if the value is neither
`null` nor absent, so on every string, the empty one included; otherwise it pushes exactly
one failure with rule `required`, the key, the value, no `param`, and the message
`The {key} attribute is required`. -/
theorem required_spec (key : String) (value : Value) (g : Globals) :
    (required key value g =
        if value ≠ .null ∧ value ≠ .undefined then (.ok (some true), g)
        else
          (.ok (some false),
            { g with
              errors := g.errors ++
                [{ rule := "required", key := key, value := value, param := none,
                   error := "The " ++ key ++ " attribute is required" }] })) ∧
      (∀ s : String, required key (.str s) g = (.ok (some true), g)) ∧
      required key (.str "") g = (.ok (some true), g) := by
  refine ⟨?_, fun s => by simp [required], by simp [required]⟩
  by_cases h : value ≠ .null ∧ value ≠ .undefined
  · simp [required, h]
  · rw [if_neg h]
    simp [required, h, push]

/-- C12: `null` returns `true` and pushes nothing if and only if the value is `null` or
absent; on every string, the empty one included, it pushes exactly one failure with rule
`null`, the key, the value and the message `The {key} attribute must be null.`; and on
every value exactly one of `required` and `null` passes. -/
theorem null_spec (key : String) (value : Value) (g : Globals) :
    (null key value g =
        if value = .null ∨ value = .undefined then (.ok (some true), g)
        else
          (.ok (some false),
            { g with
              errors := g.errors ++
                [{ rule := "null", key := key, value := value, param := none,
                   error := "The " ++ key ++ " attribute must be null." }] })) ∧
      (∀ s : String,
        null key (.str s) g =
          (.ok (some false),
            { g with
              errors := g.errors ++
                [{ rule := "null", key := key, value := .str s, param := none,
                   error := "The " ++ key ++ " attribute must be null." }] })) ∧
      (((required key value g).1 = .ok (some true) ∧ (null key value g).1 = .ok (some false)) ∨
        ((required key value g).1 = .ok (some false) ∧ (null key value g).1 = .ok (some true))) := by
  refine ⟨?_, fun s => by simp [null, push], ?_⟩
  · by_cases h : value = .null ∨ value = .undefined
    · simp [null, h]
    · rw [if_neg h]
      simp [null, h, push]
  · cases value <;> simp [required, null]

/-- The rule `email` throws exactly what the package predicate throws: the evaluator calls
`v.isEmail(value)` on the value as it is, with no test of its own before the call. -/
theorem email_throws_iff (P : StringPredicates) (key : String) (value : Value) (g : Globals)
    (e : JsError) : (email P key value g).1 = .error e ↔ P.isEmail value = .error e := by
  unfold email
  cases h : P.isEmail value with
  | error e2 => simp
  | ok valid => cases valid <;> simp

/-- C19: for a token `name`, `name:p` or `name:p:rest`, where `name` and `p` hold no `:`,
the parsed name is `name` and the parsed parameter is `p`, replaced by `null` when `p` is
empty or when the token has no `:`; so a token with a single `:` and a non-empty suffix
has that suffix as parameter, and `name` and `name:` are evaluated in the same way. -/
theorem parseRule_parts (name p rest : String) (hname : ':' ∉ name.data)
    (hp : ':' ∉ p.data) :
    parseRule name = (name, none) ∧
      parseRule (name ++ ":") = (name, none) ∧
      parseRule (name ++ ":" ++ p) = (name, if p = "" then none else some p) ∧
      parseRule (name ++ ":" ++ p ++ ":" ++ rest) = (name, if p = "" then none else some p) ∧
      (∀ (P : StringPredicates) (key : String) (value : Value) (g : Globals),
        applyRule P (parseRule (name ++ ":")).1 key value (parseRule (name ++ ":")).2 g =
          applyRule P (parseRule name).1 key value (parseRule name).2 g) := by
  have h0 : parseRule name = (name, none) := by
    simp [parseRule, split, splitChars_of_not_mem ':' _ hname]
  have h1 : parseRule (name ++ ":") = (name, none) := by
    have e : (name ++ ":").data = name.data ++ ':' :: [] := by simp
    simp [parseRule, split, e, splitChars_append ':' _ _ hname, splitChars]
  have h2 : parseRule (name ++ ":" ++ p) = (name, if p = "" then none else some p) := by
    have e : (name ++ ":" ++ p).data = name.data ++ ':' :: p.data := by simp
    simp [parseRule, split, e, splitChars_append ':' _ _ hname,
      splitChars_of_not_mem ':' _ hp]
  have h3 : parseRule (name ++ ":" ++ p ++ ":" ++ rest) =
      (name, if p = "" then none else some p) := by
    have e : (name ++ ":" ++ p ++ ":" ++ rest).data =
        name.data ++ ':' :: (p.data ++ ':' :: rest.data) := by simp
    simp [parseRule, split, e, splitChars_append ':' _ _ hname, splitChars_append ':' _ _ hp]
  exact ⟨h0, h1, h2, h3, fun P key value g => by rw [h0, h1]⟩

/-- C19 (witness): `max`, `max:`, `max:40` and `max:40:x`. -/
theorem parseRule_parts_witness :
    (':' ∉ "max".data ∧ ':' ∉ "40".data) ∧
      parseRule "max" = ("max", none) ∧ parseRule "max:" = ("max", none) ∧
      parseRule "max:40" = ("max", some "40") ∧ parseRule "max:40:x" = ("max", some "40") := by
  have h := parseRule_parts "max" "40" "x" (by decide) (by decide)
  exact ⟨by decide, h.1, h.2.1, h.2.2.1, h.2.2.2.1⟩

/-! ## The two loops as one loop over the rule applications -/

theorem runRules_eq_runApplications (P : StringPredicates) (data : Record) (key : String)
    (tokens : List String) (g : Globals) :
    runRules P data key tokens g =
      runApplications P
        (tokens.map fun token =>
          { name := (parseRule token).1, key := key, value := data key,
            param := (parseRule token).2 }) g := by
  induction tokens generalizing g with
  | nil => rfl
  | cons token rest ih =>
    rw [runRules, List.map_cons, runApplications]
    cases h : applyRule P (parseRule token).1 key (data key) (parseRule token).2 g with
    | mk r g1 =>
      cases r with
      | error e => rfl
      | ok u => exact ih g1

theorem runApplications_append (P : StringPredicates) (xs ys : List Application)
    (g : Globals) :
    runApplications P (xs ++ ys) g =
      match runApplications P xs g with
      | (.error e, g1) => (.error e, g1)
      | (.ok _, g1) => runApplications P ys g1 := by
  induction xs generalizing g with
  | nil => rfl
  | cons a rest ih =>
    rw [List.cons_append, runApplications, runApplications]
    cases h : applyRule P a.name a.key a.value a.param g with
    | mk r g1 =>
      cases r with
      | error e => rfl
      | ok u => exact ih g1

theorem runFields_eq_runApplications (P : StringPredicates) (data : Record)
    (rules : List (String × String)) (g : Globals) :
    runFields P data rules g = runApplications P (applications data rules) g := by
  induction rules generalizing g with
  | nil => rfl
  | cons entry rest ih =>
    obtain ⟨key, value⟩ := entry
    rw [runFields, applications, List.flatMap_cons, runApplications_append,
      ← runRules_eq_runApplications]
    cases h : runRules P data key (split '|' value) g with
    | mk r g1 =>
      cases r with
      | error e => rfl
      | ok u => exact ih g1

theorem applyRule_db (P : StringPredicates) (name key : String) (value : Value)
    (param : Option String) (g : Globals) :
    (applyRule P name key value param g).2.db = g.db := by
  rw [applyRule_frame]
  rfl

theorem runApplications_of_not_throws (P : StringPredicates) (apps : List Application)
    (g : Globals)
    (h : ∀ b ∈ apps, applicationThrows P g.db b.name b.key b.value b.param = false) :
    ∃ looks, runApplications P apps g =
      (.ok (),
        { db := g.db,
          errors := g.errors ++ apps.flatMap fun b =>
            applicationFailures P g.db b.name b.key b.value b.param,
          lookups := g.lookups ++ looks }) := by
  induction apps generalizing g with
  | nil => exact ⟨[], by simp [runApplications]⟩
  | cons a rest ih =>
    have h0 := h a (by simp)
    have hrest : ∀ b ∈ rest, applicationThrows P g.db b.name b.key b.value b.param = false :=
      fun b hb => h b (by simp [hb])
    rw [runApplications, applyRule_of_not_throws P _ _ _ _ g h0]
    obtain ⟨looks, hl⟩ := ih
      { db := g.db,
        errors := g.errors ++ applicationFailures P g.db a.name a.key a.value a.param,
        lookups := g.lookups ++
          (applyRule P a.name a.key a.value a.param (freshGlobals g.db)).2.lookups }
      hrest
    refine ⟨(applyRule P a.name a.key a.value a.param (freshGlobals g.db)).2.lookups ++ looks,
      ?_⟩
    simp only [hl, List.flatMap_cons, List.append_assoc]

theorem validate_eq_runApplications (P : StringPredicates) (data : Record)
    (rules : List (String × String)) (g : Globals) :
    validate P data rules g =
      match runApplications P (applications data rules) { g with errors := [] } with
      | (.error e, g1) => (.error e, g1)
      | (.ok _, g1) =>
        (.ok { valid := decide (g1.errors.length = 0), errors := g1.errors }, g1) := by
  rw [validate, runFields_eq_runApplications]

/-- C13 (the code at the failing input): whenever the package predicate throws on `null`,
`email` on `null` throws, and `validate` on `{ email: null }` with
`{ email: 'required|email' }` rejects with the same error: no result is returned, and the
`required` failure stays behind in `errors`. -/
theorem validate_required_email_null (P : StringPredicates) (g : Globals) (e : JsError)
    (h : P.isEmail .null = .error e) :
    (email P "email" .null g).1 = .error e ∧
      (validate P emailNull [("email", "required|email")] g).1 = .error e ∧
      (validate P emailNull [("email", "required|email")] g).2.errors =
        [⟨"required", "email", .null, none, "The email attribute is required"⟩] := by
  have happs : applications emailNull [("email", "required|email")] =
      [⟨"required", "email", .null, none⟩, ⟨"email", "email", .null, none⟩] := by decide
  refine ⟨(email_throws_iff P "email" .null g e).mpr h, ?_, ?_⟩
  · rw [validate_eq_runApplications, happs]
    simp [runApplications, applyRule_required, applyRule_email, required, email, h, discard,
      Except.map, push]
  · rw [validate_eq_runApplications, happs]
    simp [runApplications, applyRule_required, applyRule_email, required, email, h, discard,
      Except.map, push]

/-- C13 (witness): with the sample predicates, which throw a `TypeError` on a non-string
as the package does, the call on `{ email: null }` rejects. -/
theorem validate_required_email_null_witness :
    samplePredicates.isEmail .null = .error (.typeError "Expected a string") ∧
      (validate samplePredicates emailNull [("email", "required|email")] sampleGlobals).1 =
        .error (.typeError "Expected a string") ∧
      (validate samplePredicates emailNull [("email", "required|email")]
          sampleGlobals).2.errors =
        [⟨"required", "email", .null, none, "The email attribute is required"⟩] :=
  ⟨rfl,
    (validate_required_email_null samplePredicates sampleGlobals
      (.typeError "Expected a string") rfl).2⟩

/-! ## Unregistered rule names -/

/-- C16: when the rule applications before an `exists` or `unique` application do not
throw and the lookup of that application fails with an error, `validate` rejects with that
same error; `errors` holds only the failures of the earlier applications, and the failed
lookup is the last one made, whatever rules come after it. -/
theorem validate_store_error (P : StringPredicates) (data : Record)
    (rules : List (String × String)) (g : Globals) (store : Store)
    (before after : List Application) (a : Application) (q : Query) (e : JsError)
    (happs : applications data rules = before ++ a :: after)
    (hbefore : ∀ b ∈ before, applicationThrows P g.db b.name b.key b.value b.param = false)
    (hdb : g.db = some store)
    (hlookup : (a.name = "exists" ∧ existsQuery a.key a.value a.param = .ok q) ∨
      (a.name = "unique" ∧ truthy a.value = true ∧ uniqueQuery a.key a.value a.param = .ok q))
    (hfail : store q = .error e) :
    (validate P data rules g).1 = .error e ∧
      (validate P data rules g).2.errors =
        before.flatMap (fun b => applicationFailures P g.db b.name b.key b.value b.param) ∧
      ∃ looks, (validate P data rules g).2.lookups = looks ++ [q] := by
  obtain ⟨looks, hl⟩ := runApplications_of_not_throws P before { g with errors := [] } hbefore
  have hstep : ∀ g1 : Globals, g1.db = some store →
      applyRule P a.name a.key a.value a.param g1 =
        (.error e, { g1 with lookups := g1.lookups ++ [q] }) := by
    intro g1 hg1
    rcases hlookup with ⟨hn, hq⟩ | ⟨hn, ht, hq⟩
    · rw [hn, applyRule_exists]
      simp [exists_, hq, dbGet, hg1, hfail, discard, Except.map]
    · rw [hn, applyRule_unique]
      simp [unique, ht, hq, dbGet, hg1, hfail, discard, Except.map]
  rw [validate_eq_runApplications, happs, runApplications_append, hl]
  simp only [runApplications]
  rw [hstep]
  · exact ⟨rfl, by simp, g.lookups ++ looks, rfl⟩
  · exact hdb

/-- C16 (witness): on the empty record with
`{ name: 'required', email: 'exists:down,tenant1|required' }` the lookup in the unreachable
collection fails: the call rejects with the store's error, `errors` holds the `required`
failure of `name` only, and the later `required` on `email` is not evaluated. -/
theorem validate_store_error_witness :
    applications emptyRecord [("name", "required"), ("email", "exists:down,tenant1|required")] =
        [⟨"required", "name", .undefined, none⟩] ++
          ⟨"exists", "email", .undefined, some "down,tenant1"⟩ ::
            [⟨"required", "email", .undefined, none⟩] ∧
      (validate samplePredicates emptyRecord
          [("name", "required"), ("email", "exists:down,tenant1|required")] sampleGlobals).1 =
        .error (.storeError "ServiceUnavailable") ∧
      (validate samplePredicates emptyRecord
          [("name", "required"), ("email", "exists:down,tenant1|required")]
          sampleGlobals).2.errors =
        [⟨"required", "name", .undefined, none, "The name attribute is required"⟩] := by
  have h := validate_store_error samplePredicates emptyRecord
    [("name", "required"), ("email", "exists:down,tenant1|required")] sampleGlobals sampleStore
    [⟨"required", "name", .undefined, none⟩] [⟨"required", "email", .undefined, none⟩]
    ⟨"exists", "email", .undefined, some "down,tenant1"⟩
    ⟨"down", ["email"], [("tenant_id", .str "tenant1"), ("email", .undefined)]⟩
    (.storeError "ServiceUnavailable") (by decide) (by decide) rfl (by decide) (by decide)
  exact ⟨by decide, h.1, h.2.1.trans (by decide)⟩

/-! ## Parameters of `exists` and `unique` with fewer than two parts -/

theorem Globals.extend_assoc (g h k : Globals) :
    (g.extend h).extend k = g.extend (h.extend k) := by
  simp [Globals.extend]

theorem runApplications_frame (P : StringPredicates) (apps : List Application)
    (g : Globals) :
    runApplications P apps g =
      ((runApplications P apps (freshGlobals g.db)).1,
        g.extend (runApplications P apps (freshGlobals g.db)).2) := by
  induction apps generalizing g with
  | nil => simp [runApplications, Globals.extend_fresh]
  | cons a rest ih =>
    have hdb := applyRule_db P a.name a.key a.value a.param (freshGlobals g.db)
    rw [runApplications, runApplications, applyRule_frame]
    cases ho : applyRule P a.name a.key a.value a.param (freshGlobals g.db) with
    | mk r h =>
      rw [ho] at hdb
      have hdb2 : h.db = g.db := hdb
      cases r with
      | error e => rfl
      | ok u =>
        have e1 : (g.extend h).db = g.db := rfl
        simp only []
        rw [ih (g.extend h), ih h, e1, hdb2, Globals.extend_assoc]

theorem runApplications_db (P : StringPredicates) (apps : List Application) (g : Globals) :
    (runApplications P apps g).2.db = g.db := by
  rw [runApplications_frame]
  rfl

theorem validate_db (P : StringPredicates) (data : Record)
    (rules : List (String × String)) (g : Globals) :
    (validate P data rules g).2.db = g.db := by
  have h := runApplications_db P (applications data rules) { g with errors := [] }
  rw [validate_eq_runApplications]
  cases hr : runApplications P (applications data rules) { g with errors := [] } with
  | mk r g1 =>
    rw [hr] at h
    cases r with
    | error e => exact h
    | ok u => exact h

/-- C18 (the code at the failing input): `validate({}, { name: 'required', email:
'required' })` and `validate(contact, { name: 'required' })` are called one right after the
other and their pieces alternate.  Alone, the first call returns its two failures and the
second returns `{ valid: true, errors: [] }`.  Interleaved, both calls return the same
array, the one created by the second call: it holds the `email` failure of the first call
only, so the second call reports a failure that is not its own and the first call has lost
its `name` failure, which sits in the array nobody returns. -/
theorem interleaved_calls_share_errors :
    (validate samplePredicates emptyRecord [("name", "required"), ("email", "required")]
          sampleGlobals).1 =
        .ok { valid := false,
              errors :=
                [⟨"required", "name", .undefined, none, "The name attribute is required"⟩,
                  ⟨"required", "email", .undefined, none,
                    "The email attribute is required"⟩] } ∧
      (validate samplePredicates contact [("name", "required")] sampleGlobals).1 =
        .ok { valid := true, errors := [] } ∧
      (runSchedule samplePredicates [false, true, false, true, false]
          ((.called (applications emptyRecord [("name", "required"), ("email", "required")]),
              .called (applications contact [("name", "required")])),
            sampleShared)).1 =
        (.returned (.ok { valid := false, errors := 2 }),
          .returned (.ok { valid := false, errors := 2 })) ∧
      (runSchedule samplePredicates [false, true, false, true, false]
          ((.called (applications emptyRecord [("name", "required"), ("email", "required")]),
              .called (applications contact [("name", "required")])),
            sampleShared)).2.heap =
        [[],
          [⟨"required", "name", .undefined, none, "The name attribute is required"⟩],
          [⟨"required", "email", .undefined, none, "The email attribute is required"⟩]] := by
  decide

/-! ## A call that runs alone, piece by piece, is the call run to completion -/

theorem set_getD_self (l : List (List Failure)) (i : Nat) : l.set i (l.getD i []) = l := by
  induction l generalizing i with
  | nil => rfl
  | cons x xs ih =>
    cases i with
    | zero => rfl
    | succ j =>
      show x :: xs.set j (xs.getD j []) = x :: xs
      rw [ih j]

theorem getD_set_self (l : List (List Failure)) (i : Nat) (x : List Failure)
    (h : i < l.length) : (l.set i x).getD i [] = x := by
  induction l generalizing i with
  | nil => simp at h
  | cons y ys ih =>
    cases i with
    | zero => rfl
    | succ j =>
      have hj : j < ys.length := by simpa using h
      exact ih j hj

theorem Shared.writeBack_view (s : Shared) : s.writeBack s.view = s := by
  obtain ⟨db, ref, heap, looks⟩ := s
  simp only [Shared.writeBack, Shared.view, set_getD_self]

theorem Shared.view_writeBack (s : Shared) (g : Globals) (hwf : s.errors < s.heap.length)
    (hdb : g.db = s.db) : (s.writeBack g).view = g := by
  obtain ⟨db, errs, looks⟩ := g
  simp only at hdb
  subst hdb
  simp only [Shared.writeBack, Shared.view, getD_set_self _ _ _ hwf]

theorem Shared.writeBack_writeBack (s : Shared) (g k : Globals) :
    (s.writeBack g).writeBack k = s.writeBack k := by
  simp [Shared.writeBack, List.set_set]

theorem Shared.writeBack_wf (s : Shared) (g : Globals) (hwf : s.errors < s.heap.length) :
    (s.writeBack g).errors < (s.writeBack g).heap.length := by
  simpa [Shared.writeBack] using hwf

theorem dbGet_db (g : Globals) (q : Query) : (dbGet g q).2.db = g.db := by
  obtain ⟨db, errs, looks⟩ := g
  cases db <;> rfl

theorem runAlone_add (P : StringPredicates) (m n : Nat) (c : Task × Shared) :
    runAlone P (m + n) c = runAlone P n (runAlone P m c) := by
  induction m generalizing c with
  | zero => simp [runAlone]
  | succ k ih =>
    have e : k + 1 + n = (k + n) + 1 := by omega
    rw [e, runAlone, runAlone, ih]

theorem existsResume_ok (key : String) (value : Value) (param : Option String)
    (r : Response) (g : Globals) :
    (existsResume key value param r g).1.map (fun _ => ()) = .ok () ∧
      (existsResume key value param r g).2.db = g.db := by
  unfold existsResume
  cases found r <;> exact ⟨rfl, rfl⟩

theorem uniqueResume_ok (key : String) (value : Value) (param : Option String)
    (r : Response) (g : Globals) :
    (uniqueResume key value param r g).1.map (fun _ => ()) = .ok () ∧
      (uniqueResume key value param r g).2.db = g.db := by
  unfold uniqueResume uniqueFail
  cases notFound r <;> exact ⟨rfl, rfl⟩

/-- The rule `exists` as its two pieces, before and after the lookup. -/
theorem applyRule_lookup_exists (P : StringPredicates) (a : Application) (g : Globals)
    (h : a.name = "exists") :
    applyRule P a.name a.key a.value a.param g =
      match existsQuery a.key a.value a.param with
      | .error e => (.error e, g)
      | .ok q =>
        match (dbGet g q).1 with
        | .error e => (.error e, (dbGet g q).2)
        | .ok r => (.ok (), (existsResume a.key a.value a.param r (dbGet g q).2).2) := by
  rw [h, applyRule_exists]
  unfold exists_ discard
  cases existsQuery a.key a.value a.param with
  | error e => rfl
  | ok q =>
    cases hd : dbGet g q with
    | mk ans g1 =>
      simp only [hd]
      cases ans with
      | error e => rfl
      | ok r =>
        simp only []
        rw [(existsResume_ok a.key a.value a.param r g1).1]

/-- The rule `unique` on a truthy value as its two pieces, before and after the lookup. -/
theorem applyRule_lookup_unique (P : StringPredicates) (a : Application) (g : Globals)
    (h : a.name = "unique") (ht : truthy a.value = true) :
    applyRule P a.name a.key a.value a.param g =
      match uniqueQuery a.key a.value a.param with
      | .error e => (.error e, g)
      | .ok q =>
        match (dbGet g q).1 with
        | .error e => (.error e, (dbGet g q).2)
        | .ok r => (.ok (), (uniqueResume a.key a.value a.param r (dbGet g q).2).2) := by
  rw [h, applyRule_unique]
  unfold unique discard
  rw [if_pos ht]
  cases uniqueQuery a.key a.value a.param with
  | error e => rfl
  | ok q =>
    cases hd : dbGet g q with
    | mk ans g1 =>
      simp only [hd]
      cases ans with
      | error e => rfl
      | ok r =>
        simp only []
        rw [(uniqueResume_ok a.key a.value a.param r g1).1]

/-- From the head of the loop, a call left alone reaches `returned` after finitely many
pieces, with the outcome and the effects of the loop run in one go. -/
theorem runAlone_enter (P : StringPredicates) (apps : List Application) (s : Shared)
    (hwf : s.errors < s.heap.length) :
    ∃ n, runAlone P n (enter P apps s) =
      (.returned
          (returnOf (runApplications P apps s.view).1 (runApplications P apps s.view).2
            s.errors),
        s.writeBack (runApplications P apps s.view).2) := by
  induction apps generalizing s with
  | nil =>
    refine ⟨0, ?_⟩
    simp only [runAlone, enter, runApplications, returnOf, Shared.writeBack_view]
  | cons a rest ih =>
    have hcont : ∀ k : Globals, k.db = s.db →
        ∃ n, runAlone P n (enter P rest (s.writeBack k)) =
          (.returned
              (returnOf (runApplications P rest k).1 (runApplications P rest k).2 s.errors),
            s.writeBack (runApplications P rest k).2) := by
      intro k hk
      obtain ⟨n, hn⟩ := ih (s.writeBack k) (Shared.writeBack_wf s k hwf)
      refine ⟨n, ?_⟩
      rw [hn, Shared.view_writeBack s k hwf hk, Shared.writeBack_writeBack]
      rfl
    have hview : s.view.db = s.db := rfl
    by_cases hE : a.name = "exists"
    · rw [enter, if_pos hE, runApplications, applyRule_lookup_exists P a s.view hE]
      cases existsQuery a.key a.value a.param with
      | error e =>
        refine ⟨0, ?_⟩
        simp only [runAlone, returnOf, Shared.writeBack_view]
      | ok q =>
        have hg1 : (dbGet s.view q).2.db = s.db := dbGet_db s.view q
        cases hans : (dbGet s.view q).1 with
        | error e =>
          refine ⟨1, ?_⟩
          simp only [runAlone, step, resume, returnOf, hans]
        | ok r =>
          have hk : (existsResume a.key a.value a.param r (dbGet s.view q).2).2.db = s.db := by
            rw [(existsResume_ok a.key a.value a.param r _).2, hg1]
          obtain ⟨n, hn⟩ := hcont _ hk
          refine ⟨n + 2, ?_⟩
          simp only [runAlone, step, resume, if_pos hE, hans,
            Shared.view_writeBack s _ hwf hg1, Shared.writeBack_writeBack, hn]
    · by_cases hU : a.name = "unique" ∧ truthy a.value = true
      · rw [enter, if_neg hE, if_pos hU, runApplications,
          applyRule_lookup_unique P a s.view hU.1 hU.2]
        cases uniqueQuery a.key a.value a.param with
        | error e =>
          refine ⟨0, ?_⟩
          simp only [runAlone, returnOf, Shared.writeBack_view]
        | ok q =>
          have hg1 : (dbGet s.view q).2.db = s.db := dbGet_db s.view q
          cases hans : (dbGet s.view q).1 with
          | error e =>
            refine ⟨1, ?_⟩
            simp only [runAlone, step, resume, returnOf, hans]
          | ok r =>
            have hk : (uniqueResume a.key a.value a.param r (dbGet s.view q).2).2.db = s.db := by
              rw [(uniqueResume_ok a.key a.value a.param r _).2, hg1]
            obtain ⟨n, hn⟩ := hcont _ hk
            refine ⟨n + 2, ?_⟩
            simp only [runAlone, step, resume, if_neg hE, hans,
              Shared.view_writeBack s _ hwf hg1, Shared.writeBack_writeBack, hn]
      · rw [enter, if_neg hE, if_neg hU, runApplications]
        have hdb := applyRule_db P a.name a.key a.value a.param s.view
        cases happ : applyRule P a.name a.key a.value a.param s.view with
        | mk r g1 =>
          rw [happ] at hdb
          cases r with
          | error e =>
            refine ⟨0, ?_⟩
            simp only [runAlone, returnOf]
          | ok u =>
            obtain ⟨n, hn⟩ := hcont g1 hdb
            refine ⟨n + 1, ?_⟩
            simp only [runAlone, step, hn]

/-- A call left alone, run piece by piece, returns what the call run to completion
returns, and leaves the same state: the two embeddings of `validate` agree. -/
theorem runAlone_called (P : StringPredicates) (data : Record)
    (rules : List (String × String)) (s : Shared) :
    ∃ n, runAlone P n (.called (applications data rules), s) =
      (.returned (validateShared P data rules s).1, (validateShared P data rules s).2) := by
  have hwf : s.reset.errors < s.reset.heap.length := by simp [Shared.reset]
  obtain ⟨n, hn⟩ := runAlone_enter P (applications data rules) s.reset hwf
  refine ⟨n + 1, ?_⟩
  rw [runAlone]
  simp only [step]
  rw [hn, validateShared, runFields_eq_runApplications]
  cases runApplications P (applications data rules) s.reset.view with
  | mk r g1 =>
    cases r with
    | error e => rfl
    | ok u => rfl

end SamValidator
